import Mathlib

/-!
Verification development for the medallion-architecture S3 ingestion utilities
(`utils/s3_utils.py`, `src/bronze/transactions.py`).  Python functions are
shallowly embedded as executable Lean definitions; bytes are modelled as lists
of naturals, Python dicts as insertion-ordered association lists, and the S3
bucket as an association list from keys to stored objects.
-/

namespace S3Spec

/-- Bytes of a stored object, modelled abstractly as a list of naturals. -/
abbrev Bytes := List Nat

/-- Insertion-ordered string-keyed association list: the model of a Python
dict (Python dicts preserve insertion order; assigning to an existing key
keeps its position and replaces the value). -/
abbrev AList (α : Type) := List (String × α)

/-- Lookup in an association list (first binding wins; the model keeps at most
one binding per key). -/
def alistGet {α : Type} (d : AList α) (k : String) : Option α :=
  (d.find? (fun p => p.1 = k)).map Prod.snd

/-- Python dict assignment d[k] = v: replace in place if the key is present,
append otherwise. -/
def alistInsert {α : Type} (d : AList α) (k : String) (v : α) : AList α :=
  if d.any (fun p => p.1 = k) then
    d.map (fun p => if p.1 = k then (k, v) else p)
  else d ++ [(k, v)]

/-- Python dict.update(e): assign every binding of e, in order. -/
def alistUpdate {α : Type} (d e : AList α) : AList α :=
  e.foldl (fun acc p => alistInsert acc p.1 p.2) d

theorem alistGet_map_subst {α : Type} (d : AList α) (k : String) (v : α)
    (h : d.any (fun p => p.1 = k) = true) :
    alistGet (d.map (fun p => if p.1 = k then (k, v) else p)) k = some v := by
  induction d with
  | nil => simp at h
  | cons p d ih =>
    by_cases hp : p.1 = k
    · simp [alistGet, List.find?, hp]
    · simp only [List.any_cons, Bool.or_eq_true, decide_eq_true_eq] at h
      have h2 : d.any (fun p => p.1 = k) = true := by
        rcases h with h | h
        · exact absurd h hp
        · exact h
      simp only [List.map_cons, if_neg hp]
      simpa [alistGet, List.find?, hp] using ih h2

theorem alistGet_append_single {α : Type} (d : AList α) (k : String) (v : α)
    (h : ¬ d.any (fun p => p.1 = k) = true) :
    alistGet (d ++ [(k, v)]) k = some v := by
  induction d with
  | nil => simp [alistGet, List.find?]
  | cons p d ih =>
    simp only [List.any_cons, Bool.or_eq_true, decide_eq_true_eq, not_or] at h
    have hp : ¬ p.1 = k := h.1
    have h2 : ¬ d.any (fun p => p.1 = k) = true := by simpa using h.2
    simpa [alistGet, List.find?, hp] using ih h2

theorem alistGet_insert_self {α : Type} (d : AList α) (k : String) (v : α) :
    alistGet (alistInsert d k v) k = some v := by
  unfold alistInsert
  by_cases h : d.any (fun p => p.1 = k) = true
  · rw [if_pos h]; exact alistGet_map_subst d k v h
  · rw [if_neg h]; exact alistGet_append_single d k v h

theorem alistGet_map_subst_ne {α : Type} (d : AList α) (k k2 : String) (v : α)
    (hne : k2 ≠ k) :
    alistGet (d.map (fun p => if p.1 = k2 then (k2, v) else p)) k = alistGet d k := by
  induction d with
  | nil => rfl
  | cons p d ih =>
    by_cases hp : p.1 = k2
    · have hpk : ¬ p.1 = k := by rw [hp]; exact hne
      simp only [List.map_cons, if_pos hp]
      simpa [alistGet, List.find?, hpk, hne] using ih
    · by_cases hpk : p.1 = k
      · simp [alistGet, List.find?, hp, hpk, Ne.symm hne]
      · simp only [List.map_cons, if_neg hp]
        simpa [alistGet, List.find?, hpk] using ih

theorem alistGet_append_single_ne {α : Type} (d : AList α) (k k2 : String) (v : α)
    (hne : k2 ≠ k) : alistGet (d ++ [(k2, v)]) k = alistGet d k := by
  induction d with
  | nil => simp [alistGet, List.find?, hne]
  | cons p d ih =>
    by_cases hpk : p.1 = k
    · simp [alistGet, List.find?, hpk]
    · simpa [alistGet, List.find?, hpk] using ih

theorem alistGet_insert_ne {α : Type} (d : AList α) (k k2 : String) (v : α)
    (hne : k2 ≠ k) : alistGet (alistInsert d k2 v) k = alistGet d k := by
  unfold alistInsert
  by_cases h : d.any (fun p => p.1 = k2) = true
  · rw [if_pos h]; exact alistGet_map_subst_ne d k k2 v hne
  · rw [if_neg h]; exact alistGet_append_single_ne d k k2 v hne

theorem alistGet_insert_isSome {α : Type} (d : AList α) (k k2 : String) (v : α)
    (h : (alistGet d k).isSome) : (alistGet (alistInsert d k2 v) k).isSome := by
  by_cases he : k2 = k
  · subst he; rw [alistGet_insert_self]; rfl
  · rwa [alistGet_insert_ne d k k2 v he]

theorem alistGet_update_isSome {α : Type} (d e : AList α) (k : String)
    (h : (alistGet d k).isSome) : (alistGet (alistUpdate d e) k).isSome := by
  induction e generalizing d with
  | nil => exact h
  | cons p e ih =>
    exact ih (alistInsert d p.1 p.2) (alistGet_insert_isSome d k p.1 p.2 h)

theorem alistGet_update_not_mem {α : Type} (d e : AList α) (k : String)
    (h : ∀ p ∈ e, p.1 ≠ k) : alistGet (alistUpdate d e) k = alistGet d k := by
  induction e generalizing d with
  | nil => rfl
  | cons p e ih =>
    have hp : p.1 ≠ k := h p (List.mem_cons_self p e)
    have ht : ∀ q ∈ e, q.1 ≠ k := fun q hq => h q (List.mem_cons_of_mem p hq)
    rw [alistUpdate, List.foldl_cons]
    have := ih (alistInsert d p.1 p.2) ht
    rw [alistUpdate] at this
    rw [this, alistGet_insert_ne d k p.1 p.2 hp]

/-! ## The tabular data model (pandas DataFrame, restricted to integer and
string columns) -/

/-- Column dtype: int64 or object/string. -/
inductive ColType where
  | int64 : ColType
  | strType : ColType
deriving DecidableEq, Repr

/-- One cell of a column. -/
inductive Cell where
  | intCell : Int → Cell
  | strCell : String → Cell
deriving DecidableEq, Repr

/-- A named, typed column with its values in row order. -/
structure Column where
  name : String
  dtype : ColType
  values : List Cell
deriving DecidableEq, Repr

/-- A DataFrame: ordered named columns. -/
structure DataFrame where
  cols : List Column
deriving DecidableEq, Repr

/-- Number of rows (length of the first column, 0 for no columns) —
models df.shape[0]. -/
def DataFrame.nrows (df : DataFrame) : Nat :=
  match df.cols with
  | [] => 0
  | c :: _ => c.values.length

/-- df.shape as (rows, columns). -/
def DataFrame.shape (df : DataFrame) : Nat × Nat :=
  (df.nrows, df.cols.length)

/-! ## String helpers (executable models of Python str operations) -/

/-- Model of Python str.lower() on a key. -/
def strToLower (s : String) : String := ⟨s.data.map Char.toLower⟩

/-- Model of Python str.startswith(prefixStr) / S3 key-prefix matching. -/
def strStartsWith (s p : String) : Bool := p.data.isPrefixOf s.data

/-- Model of Python str.endswith(suf). -/
def strEndsWith (s suf : String) : Bool := suf.data.reverse.isPrefixOf s.data.reverse

/-- Comma-join a list of strings (','.join in Python). -/
def commaJoin : List String → String
  | [] => ""
  | [x] => x
  | x :: xs => x ++ "," ++ commaJoin xs

/-- Encode a string as abstract bytes (UTF-8 modelled as codepoints). -/
def stringToBytes (s : String) : Bytes := s.data.map Char.toNat

/-! ## Columnar-binary (parquet) codec

Modelled from the spec: the actual encoding is performed by the external
pyarrow library (pq.write_table / pq.read_table in write_parquet_to_s3 and
read_parquet_from_s3); the spec requires that the columnar format
"preserve column types exactly (round-trip equality)".  We model it as a
self-describing, injective byte encoding of a DataFrame. -/

/-- Length-prefixed string encoding. -/
def encodeString (s : String) : Bytes := s.data.length :: s.data.map Char.toNat

/-- Inverse of encodeString, returning the remaining bytes. -/
def decodeString : Bytes → Option (String × Bytes)
  | n :: rest =>
      if n ≤ rest.length then
        some (⟨(rest.take n).map Char.ofNat⟩, rest.drop n)
      else none
  | [] => none

/-- Sign-and-magnitude integer encoding. -/
def encodeInt (i : Int) : Bytes := if 0 ≤ i then [0, i.toNat] else [1, (-i).toNat]

/-- Inverse of encodeInt. -/
def decodeInt : Bytes → Option (Int × Bytes)
  | 0 :: n :: rest => some ((n : Int), rest)
  | 1 :: n :: rest => some (-(n : Int), rest)
  | _ => none

/-- Tagged cell encoding. -/
def encodeCell : Cell → Bytes
  | .intCell i => 0 :: encodeInt i
  | .strCell s => 1 :: encodeString s

/-- Inverse of encodeCell. -/
def decodeCell : Bytes → Option (Cell × Bytes)
  | 0 :: rest => (decodeInt rest).map (fun p => (.intCell p.1, p.2))
  | 1 :: rest => (decodeString rest).map (fun p => (.strCell p.1, p.2))
  | _ => none

/-- Column dtype tag. -/
def encodeColType : ColType → Bytes
  | .int64 => [0]
  | .strType => [1]

/-- Inverse of encodeColType. -/
def decodeColType : Bytes → Option (ColType × Bytes)
  | 0 :: rest => some (.int64, rest)
  | 1 :: rest => some (.strType, rest)
  | _ => none

/-- Count-prefixed list encoding. -/
def encodeList {α : Type} (enc : α → Bytes) (xs : List α) : Bytes :=
  xs.length :: (xs.map enc).flatten

/-- Decode a known number of elements. -/
def decodeCount {α : Type} (dec : Bytes → Option (α × Bytes)) :
    Nat → Bytes → Option (List α × Bytes)
  | 0, b => some ([], b)
  | n + 1, b =>
      (dec b).bind fun p =>
        (decodeCount dec n p.2).map fun q => (p.1 :: q.1, q.2)

/-- Inverse of encodeList. -/
def decodeList {α : Type} (dec : Bytes → Option (α × Bytes)) :
    Bytes → Option (List α × Bytes)
  | n :: rest => decodeCount dec n rest
  | [] => none

/-- One column: name, dtype, values. -/
def encodeColumn (c : Column) : Bytes :=
  encodeString c.name ++ encodeColType c.dtype ++ encodeList encodeCell c.values

/-- Inverse of encodeColumn. -/
def decodeColumn (b : Bytes) : Option (Column × Bytes) :=
  (decodeString b).bind fun pn =>
    (decodeColType pn.2).bind fun pt =>
      (decodeList decodeCell pt.2).map fun pv =>
        (⟨pn.1, pt.1, pv.1⟩, pv.2)

/-- Serialize a DataFrame to columnar-binary bytes (model of
pa.Table.from_pandas + pq.write_table). -/
def parquetEncode (df : DataFrame) : Bytes := encodeList encodeColumn df.cols

/-- Deserialize columnar-binary bytes back to a DataFrame (model of
pq.read_table + Table.to_pandas); fails on malformed or trailing bytes. -/
def parquetDecode (b : Bytes) : Option DataFrame :=
  match decodeList decodeColumn b with
  | some (cols, []) => some ⟨cols⟩
  | _ => none

theorem decodeString_encodeString (s : String) (r : Bytes) :
    decodeString (encodeString s ++ r) = some (s, r) := by
  have hlen : (s.data.map Char.toNat).length = s.data.length := List.length_map _ _
  simp only [encodeString, List.cons_append, decodeString]
  rw [if_pos]
  · congr 1
    have ht : (s.data.map Char.toNat ++ r).take s.data.length = s.data.map Char.toNat := by
      rw [← hlen]; exact List.take_left _ _
    have hd : (s.data.map Char.toNat ++ r).drop s.data.length = r := by
      rw [← hlen]; exact List.drop_left _ _
    rw [ht, hd, List.map_map]
    have : (s.data.map (Char.ofNat ∘ Char.toNat)) = s.data := by
      rw [show (Char.ofNat ∘ Char.toNat) = id from funext Char.ofNat_toNat]
      exact List.map_id s.data
    rw [this]
  · rw [List.length_append, hlen]
    exact Nat.le_add_right _ _

theorem decodeInt_encodeInt (i : Int) (r : Bytes) :
    decodeInt (encodeInt i ++ r) = some (i, r) := by
  by_cases h : 0 ≤ i
  · simp only [encodeInt, if_pos h, List.cons_append, List.nil_append, decodeInt]
    congr 2
    exact Int.toNat_of_nonneg h
  · simp only [encodeInt, if_neg h, List.cons_append, List.nil_append, decodeInt]
    congr 2
    have : (0 : Int) ≤ -i := by omega
    rw [Int.toNat_of_nonneg this]; ring

theorem decodeCell_encodeCell (c : Cell) (r : Bytes) :
    decodeCell (encodeCell c ++ r) = some (c, r) := by
  cases c with
  | intCell i =>
      simp [encodeCell, decodeCell, decodeInt_encodeInt]
  | strCell s =>
      simp [encodeCell, decodeCell, decodeString_encodeString]

theorem decodeColType_encodeColType (t : ColType) (r : Bytes) :
    decodeColType (encodeColType t ++ r) = some (t, r) := by
  cases t <;> rfl

theorem decodeCount_encodeList {α : Type} (dec : Bytes → Option (α × Bytes))
    (enc : α → Bytes) (H : ∀ x r, dec (enc x ++ r) = some (x, r))
    (xs : List α) (r : Bytes) :
    decodeCount dec xs.length ((xs.map enc).flatten ++ r) = some (xs, r) := by
  induction xs with
  | nil => rfl
  | cons x xs ih =>
      simp [decodeCount, List.append_assoc, H, ih]

theorem decodeList_encodeList {α : Type} (dec : Bytes → Option (α × Bytes))
    (enc : α → Bytes) (H : ∀ x r, dec (enc x ++ r) = some (x, r))
    (xs : List α) (r : Bytes) :
    decodeList dec (encodeList enc xs ++ r) = some (xs, r) := by
  simp only [encodeList, List.cons_append, decodeList]
  exact decodeCount_encodeList dec enc H xs r

theorem decodeColumn_encodeColumn (c : Column) (r : Bytes) :
    decodeColumn (encodeColumn c ++ r) = some (c, r) := by
  simp [encodeColumn, decodeColumn, List.append_assoc, decodeString_encodeString,
    decodeColType_encodeColType,
    decodeList_encodeList decodeCell encodeCell decodeCell_encodeCell]

theorem parquetDecode_parquetEncode (df : DataFrame) :
    parquetDecode (parquetEncode df) = some df := by
  have h := decodeList_encodeList decodeColumn encodeColumn
    decodeColumn_encodeColumn df.cols []
  rw [List.append_nil] at h
  simp only [parquetDecode, parquetEncode, h]

/-! ## The object store and the utils/s3_utils.py functions -/

/-- Errors surfaced by the embedded utility functions. -/
inductive PyErr where
  | clientError (code : String)
  | otherError (msg : String)
  | fileNotFound (key : String)
  | parseError (key : String)
  | jsonError (msg : String)
deriving DecidableEq, Repr

/-- One stored S3 object: body, content type, user metadata. -/
structure S3Object where
  body : Bytes
  contentType : String
  metadata : AList String
deriving DecidableEq, Repr

/-- The bucket: keys to objects, in listing order. -/
abbrev Store := AList S3Object

/-- Fetch an object (get_object / head_object against a healthy store). -/
def storeGet (s : Store) (k : String) : Option S3Object := alistGet s k

/-- put_object: create or overwrite. -/
def storePut (s : Store) (k : String) (o : S3Object) : Store := alistInsert s k o

/-- The outcome of the head_object call inside check_file_exists: success, a
botocore ClientError with its error code, or any other exception. -/
inductive HeadResult where
  | success
  | clientHeadError (code : String)
  | otherHeadError (msg : String)
deriving DecidableEq, Repr

/-- head_object against a healthy store: success when present, a ClientError
with code 404 when absent. -/
def head_object (s : Store) (k : String) : HeadResult :=
  if (storeGet s k).isSome then .success else .clientHeadError "404"

/-- check_file_exists (utils/s3_utils.py lines 33-49), as a function of the
outcome of its head_object call: True on success; on a ClientError, False if
the error code is "404" and re-raise otherwise; re-raise any other
exception. -/
def check_file_exists : HeadResult → Except PyErr Bool
  | .success => .ok true
  | .clientHeadError code =>
      if code = "404" then .ok false else .error (.clientError code)
  | .otherHeadError msg => .error (.otherError msg)

/-- One page delivered by the list_objects_v2 paginator: none models a page
carrying no Contents entry. -/
abbrev Page := Option (List String)

/-- All keys the pages jointly deliver, in order. -/
def pagesKeys (pages : List Page) : List String :=
  (pages.map (fun p => p.getD [])).flatten

/-- The keys of the store under a prefix, in listing order: what the
paginator's pages jointly deliver for Prefix=pre. -/
def s3ListKeys (s : Store) (pre : String) : List String :=
  (s.map Prod.fst).filter (fun k => strStartsWith k pre)

/-- The suffix test of list_objects: Python `not suffix or key.endswith(suffix)`. -/
def sufMatch (suf k : String) : Bool := suf == "" || strEndsWith k suf

/-- list_objects (utils/s3_utils.py lines 51-72): walk the paginator's pages,
keep each key passing the suffix test, in page order. -/
def list_objects (pages : List Page) (suf : String) : List String :=
  pages.foldl
    (fun acc page =>
      match page with
      | some contents => acc ++ contents.filter (sufMatch suf)
      | none => acc)
    []

/-- read_parquet_from_s3 (utils/s3_utils.py lines 97-120): existence check,
fetch, decode. -/
def read_parquet_from_s3 (s : Store) (key : String) : Except PyErr DataFrame :=
  match check_file_exists (head_object s key) with
  | .error e => .error e
  | .ok false => .error (.fileNotFound key)
  | .ok true =>
      match storeGet s key with
      | some obj =>
          match parquetDecode obj.body with
          | some df => .ok df
          | none => .error (.parseError key)
      | none => .error (.fileNotFound key)

/-- A Python value produced by json.loads: dict, list, string or number
(payloads flattened to strings; only the shape matters to the claims). -/
inductive PyJson where
  | jdict (entries : AList String)
  | jlist (items : List String)
  | jstr (s : String)
  | jint (i : Int)
deriving DecidableEq, Repr

/-- A boto3 StreamingBody: the stored content plus a read cursor.  The
stream is read at most once; a read returns everything from the cursor on
and leaves the cursor at the end. -/
structure StreamingBody where
  content : Bytes
  pos : Nat
deriving DecidableEq, Repr

/-- StreamingBody.read(): the bytes from the cursor on, and the exhausted
stream. -/
def StreamingBody.readAll (b : StreamingBody) : Bytes × StreamingBody :=
  (b.content.drop b.pos, ⟨b.content, b.content.length⟩)

/-- read_json_from_s3 (utils/s3_utils.py lines 122-149), parameterized by the
outcomes of the two external parsers: pd.read_json under the requested orient
and json.loads.  obj.Body is a StreamingBody; pd.read_json drains it fully
into memory before parsing (pandas reads file-like input with data.read()),
so when the bare except then falls back, obj.Body.read() yields only the
stream's remainder — the bytes left after the drain — and json.loads runs on
those; a json.loads failure is caught by the outer handler and re-raised. -/
def read_json_from_s3 (pdReadJson : Bytes → Except String DataFrame)
    (jsonLoads : Bytes → Except String PyJson)
    (s : Store) (key : String) : Except PyErr (DataFrame ⊕ PyJson) :=
  match check_file_exists (head_object s key) with
  | .error e => .error e
  | .ok false => .error (.fileNotFound key)
  | .ok true =>
      match storeGet s key with
      | some obj =>
          let drained := StreamingBody.readAll ⟨obj.body, 0⟩
          match pdReadJson drained.1 with
          | .ok df => .ok (.inl df)
          | .error _ =>
              let rest := drained.2.readAll
              match jsonLoads rest.1 with
              | .ok v => .ok (.inr v)
              | .error m => .error (.jsonError m)
      | none => .error (.fileNotFound key)

/-- prepare_metadata (utils/s3_utils.py lines 151-174).  timestamp models
datetime.now().isoformat(), user models os.environ.get of the USER variable;
shape is (rows, columns); caller metadata keys are lower-cased and merged
last via dict.update.  An absent or empty custom dict is falsy in Python;
updating with the empty dict is a no-op, so none models both. -/
def prepare_metadata (custom_metadata : Option (AList String)) (file_type : String)
    (shape : Option (Nat × Nat)) (timestamp user : String) : AList String :=
  let metadata : AList String := [("created-at", timestamp), ("created-by", user)]
  let metadata :=
    if file_type ≠ "" then alistInsert metadata "file-type" file_type else metadata
  let metadata :=
    match shape with
    | some sh =>
        alistInsert (alistInsert metadata "rows" (toString sh.1)) "columns" (toString sh.2)
    | none => metadata
  match custom_metadata with
  | some cm => alistUpdate metadata (cm.map (fun p => (strToLower p.1, p.2)))
  | none => metadata

/-- Render one cell as text (CSV). -/
def cellToString : Cell → String
  | .intCell i => toString i
  | .strCell s => s

/-- Row i of the frame as text fields. -/
def rowStrings (df : DataFrame) (i : Nat) : List String :=
  df.cols.map (fun c => cellToString (c.values.getD i (.strCell "")))

/-- df.to_csv(index=False): header line then one line per row. -/
def csvString (df : DataFrame) : String :=
  commaJoin (df.cols.map Column.name) ++ "\n" ++
    String.join ((List.range df.nrows).map (fun i => commaJoin (rowStrings df i) ++ "\n"))

/-- CSV body bytes. -/
def csvEncode (df : DataFrame) : Bytes := stringToBytes (csvString df)

/-- Render one cell as a JSON literal. -/
def jsonCellString : Cell → String
  | .intCell i => toString i
  | .strCell s => "\"" ++ s ++ "\""

/-- df.to_json(orient=records): an array of one object per row. -/
def dfToJsonString (df : DataFrame) : String :=
  "[" ++
    commaJoin ((List.range df.nrows).map (fun i =>
      "\x7b" ++
        commaJoin (df.cols.map (fun c =>
          "\"" ++ c.name ++ "\":" ++ jsonCellString (c.values.getD i (.strCell "")))) ++
      "\x7d")) ++
  "]"

/-- json.dumps on a non-DataFrame value. -/
def pyJsonToString : PyJson → String
  | .jdict entries =>
      "\x7b" ++
        commaJoin (entries.map (fun p => "\"" ++ p.1 ++ "\":\"" ++ p.2 ++ "\"")) ++
      "\x7d"
  | .jlist items => "[" ++ commaJoin (items.map (fun x => "\"" ++ x ++ "\"")) ++ "]"
  | .jstr s => "\"" ++ s ++ "\""
  | .jint i => toString i

/-- write_csv_to_s3 (utils/s3_utils.py lines 176-207): serialize to CSV,
build metadata with file_type csv and df.shape, put the object. -/
def write_csv_to_s3 (df : DataFrame) (key : String) (metadata : Option (AList String))
    (timestamp user : String) (s : Store) : Store :=
  let s3_metadata := prepare_metadata metadata "csv" (some df.shape) timestamp user
  storePut s key ⟨csvEncode df, "text/csv", s3_metadata⟩

/-- write_parquet_to_s3 (utils/s3_utils.py lines 209-270).  With partition
columns (truthy list) the external pq.write_to_dataset produces a directory
tree; partFiles models the (relative path, bytes) pairs found by the os.walk,
each uploaded under key/relative-path with the same metadata.  Without
partition columns the table is written whole at key. -/
def write_parquet_to_s3 (df : DataFrame) (key : String) (partition_cols : List String)
    (partFiles : List (String × Bytes)) (metadata : Option (AList String))
    (timestamp user : String) (s : Store) : Store :=
  let s3_metadata := prepare_metadata metadata "parquet" (some df.shape) timestamp user
  if partition_cols.isEmpty then
    storePut s key ⟨parquetEncode df, "application/octet-stream", s3_metadata⟩
  else
    partFiles.foldl
      (fun st f =>
        storePut st (key ++ "/" ++ f.1) ⟨f.2, "application/octet-stream", s3_metadata⟩)
      s

/-- The shape write_json_to_s3 computes: df.shape for a DataFrame,
(len, 1) for a list, (1, len) for a dict, (1, 1) otherwise. -/
def jsonShape : DataFrame ⊕ PyJson → Nat × Nat
  | .inl df => df.shape
  | .inr (.jlist l) => (l.length, 1)
  | .inr (.jdict d) => (1, d.length)
  | .inr _ => (1, 1)

/-- write_json_to_s3 (utils/s3_utils.py lines 272-309): serialize to JSON,
build metadata with file_type json and the computed shape, put the object. -/
def write_json_to_s3 (data : DataFrame ⊕ PyJson) (key : String)
    (metadata : Option (AList String)) (timestamp user : String) (s : Store) : Store :=
  let json_data :=
    match data with
    | .inl df => stringToBytes (dfToJsonString df)
    | .inr v => stringToBytes (pyJsonToString v)
  let s3_metadata := prepare_metadata metadata "json" (some (jsonShape data)) timestamp user
  storePut s key ⟨json_data, "application/json", s3_metadata⟩

/-! ## Layer Manager ingestion

Modelled from the spec: the RawLayerManager class and its ingest_data method
are imported from utils.s3_utils by src/bronze/transactions.py but the class
itself is absent from src/.  The definitions below follow spec sections 4.1
(Key Builder), 4.2 (Serializer dispatch), 4.3 (Checksum), 4.5 (ingest_data
state machine) and 6 (key and metadata schemata). -/

/-- A processing date/time, with the two renderings the spec names. -/
structure PDate where
  year : Nat
  month : Nat
  day : Nat
  hour : Nat
  minute : Nat
  second : Nat
deriving DecidableEq, Repr

/-- Zero-pad to two digits. -/
def pad2 (n : Nat) : String := if n < 10 then "0" ++ toString n else toString n

/-- Zero-pad to four digits. -/
def pad4 (n : Nat) : String :=
  if n < 10 then "000" ++ toString n
  else if n < 100 then "00" ++ toString n
  else if n < 1000 then "0" ++ toString n
  else toString n

/-- The YYYYMMDD_HHMMSS rendering inside object keys. -/
def PDate.keyTimestamp (d : PDate) : String :=
  pad4 d.year ++ pad2 d.month ++ pad2 d.day ++ "_" ++
    pad2 d.hour ++ pad2 d.minute ++ pad2 d.second

/-- The ISO-8601 rendering inside metadata. -/
def PDate.isoString (d : PDate) : String :=
  pad4 d.year ++ "-" ++ pad2 d.month ++ "-" ++ pad2 d.day ++ "T" ++
    pad2 d.hour ++ ":" ++ pad2 d.minute ++ ":" ++ pad2 d.second

/-- Modelled from the spec: the Key Builder (spec 4.1, 6) —
tier/source/k1=v1/.../source_YYYYMMDD_HHMMSS.fmt, partition segments in the
iteration order of the supplied mapping. -/
def build_key (tier source fmt : String) (date : PDate) (partition : AList String) :
    String :=
  tier ++ "/" ++ source ++ "/" ++
    (partition.foldl (fun acc p => acc ++ p.1 ++ "=" ++ p.2 ++ "/") "") ++
    source ++ "_" ++ date.keyTimestamp ++ "." ++ fmt

/-- Modelled from the spec: the Serializer dispatch (spec 4.2) over the closed
format set; none models UnsupportedFormatError. -/
def serialize (df : DataFrame) (fmt : String) : Option Bytes :=
  if fmt = "parquet" then some (parquetEncode df)
  else if fmt = "csv" then some (csvEncode df)
  else if fmt = "json" then some (stringToBytes (dfToJsonString df))
  else none

/-- Modelled from the spec: the Checksum Function (spec 4.3) — a fixed,
deterministic, non-cryptographic digest of the serialized bytes, rendered as
a string. -/
def checksum (b : Bytes) : String :=
  toString (b.foldl (fun a x => (a * 31 + x + 1) % 1000000007) 7)

/-- Modelled from the spec: the ingestion metadata (spec 3, 6) — source,
layer, processing_date, checksum, format, rows, comma-joined column names,
with caller extras merged in under lower-cased keys. -/
def ingestMetadata (source tier : String) (date : PDate) (ck fmt : String)
    (df : DataFrame) (custom : AList String) : AList String :=
  alistUpdate
    [("source", source), ("layer", tier), ("processing_date", date.isoString),
     ("checksum", ck), ("format", fmt), ("rows", toString df.nrows),
     ("columns", commaJoin (df.cols.map Column.name))]
    (custom.map (fun p => (strToLower p.1, p.2)))

/-- The store-facing and compute steps an ingest_data call performs, in
order. -/
inductive Op where
  | opExists (key : String)
  | opSerialize
  | opChecksum
  | opWrite (key : String)
deriving DecidableEq, Repr

/-- Result of one ingest_data call: returned key, resulting store, and the
trace of steps performed. -/
structure IngestResult where
  key : String
  store : Store
  ops : List Op
deriving DecidableEq, Repr

/-- Number of underlying object-store writes in a trace. -/
def countWrites (ops : List Op) : Nat :=
  ops.countP (fun o => match o with | .opWrite _ => true | _ => false)

/-- Modelled from the spec: LayerManager.ingest_data (spec 4.5) — the
RawLayerManager hierarchy is imported from utils.s3_utils by
src/bronze/transactions.py but absent from src/.  The state machine is
START, VALIDATE, PROCESS, BUILD_KEY, CHECK_EXISTS, then either terminal skip
or SERIALIZE, CHECKSUM, BUILD_METADATA, WRITE; a zero-row input returns an
empty key with no store interaction.  The tier hooks are the injected
validate/transform functions of spec 9 (identity for raw and bronze). -/
def ingest_data (tier source : String)
    (validateHook processHook : DataFrame → DataFrame)
    (df : DataFrame) (date : PDate) (fmt : String) (partition : AList String)
    (custom : AList String) (store : Store) : Except String IngestResult :=
  if df.nrows = 0 then .ok ⟨"", store, []⟩
  else
    let d2 := processHook (validateHook df)
    let key := build_key tier source fmt date partition
    if (storeGet store key).isSome then .ok ⟨key, store, [.opExists key]⟩
    else
      match serialize d2 fmt with
      | none => .error "UnsupportedFormatError"
      | some body =>
          let ck := checksum body
          let md := ingestMetadata source tier date ck fmt d2 custom
          .ok ⟨key, storePut store key ⟨body, "application/octet-stream", md⟩,
               [.opExists key, .opSerialize, .opChecksum, .opWrite key]⟩

/-! ## Store lemmas and concrete examples -/

theorem storeGet_storePut (s : Store) (k : String) (o : S3Object) :
    storeGet (storePut s k o) k = some o := alistGet_insert_self s k o

theorem storeGet_storePut_ne (s : Store) (k k2 : String) (o : S3Object)
    (h : k2 ≠ k) : storeGet (storePut s k2 o) k = storeGet s k :=
  alistGet_insert_ne s k k2 o h

theorem storePut_lookup_cases (s : Store) (key k : String) (o : S3Object) :
    storeGet (storePut s key o) k = storeGet s k ∨
    storeGet (storePut s key o) k = some o := by
  by_cases h : key = k
  · right; rw [h]; exact storeGet_storePut s k o
  · left; exact storeGet_storePut_ne s k key o h

/-- The concrete 3-row, 2-column frame of spec 8.7. -/
def dfEx : DataFrame :=
  ⟨[⟨"id", .int64, [.intCell 1, .intCell 2, .intCell 3]⟩,
    ⟨"amount", .int64, [.intCell 10, .intCell 20, .intCell 30]⟩]⟩

/-- The concrete processing date of spec 8.7. -/
def pdEx : PDate := ⟨2024, 3, 2, 10, 15, 0⟩

/-- A concrete stored object. -/
def objEx : S3Object := ⟨stringToBytes "x", "application/json", []⟩

/-! ## Claim theorems -/

/-- Claim C4: check_file_exists returns True when the head operation
succeeds, returns False exactly when the store reports error code 404, and
re-raises every other store error unchanged — a permission or throttling
failure is never mapped to False. -/
theorem check_file_exists_spec :
    check_file_exists .success = .ok true ∧
    check_file_exists (.clientHeadError "404") = .ok false ∧
    (∀ code, code ≠ "404" →
      check_file_exists (.clientHeadError code) = .error (.clientError code)) ∧
    (∀ msg, check_file_exists (.otherHeadError msg) = .error (.otherError msg)) ∧
    (∀ h, check_file_exists h = .ok false ↔ h = .clientHeadError "404") := by
  refine ⟨rfl, rfl, ?_, fun _ => rfl, ?_⟩
  · intro code hc
    simp [check_file_exists, hc]
  · intro h
    cases h with
    | success => simp [check_file_exists]
    | clientHeadError code =>
        by_cases hc : code = "404"
        · subst hc; simp [check_file_exists]
        · simp [check_file_exists, hc]
    | otherHeadError msg => simp [check_file_exists]

/-- Witness for C4 at a concrete non-404 client error. -/
theorem check_file_exists_spec_witness :
    check_file_exists (.clientHeadError "403") = .error (.clientError "403") :=
  check_file_exists_spec.2.2.1 "403" (by decide)

/-- Claim C5: write_parquet_to_s3 followed by read_parquet_from_s3 on the
same key returns the original DataFrame — same column schema and types, same
values, same row order. -/
theorem parquet_write_read_roundtrip (df : DataFrame) (key : String)
    (metadata : Option (AList String)) (timestamp user : String) (s : Store) :
    read_parquet_from_s3
      (write_parquet_to_s3 df key [] [] metadata timestamp user s) key = .ok df := by
  have hobj : storeGet (write_parquet_to_s3 df key [] [] metadata timestamp user s) key
      = some ⟨parquetEncode df, "application/octet-stream",
             prepare_metadata metadata "parquet" (some df.shape) timestamp user⟩ := by
    unfold write_parquet_to_s3
    simp only [List.isEmpty_nil, if_true]
    exact storeGet_storePut _ _ _
  unfold read_parquet_from_s3 head_object
  rw [hobj]
  simp [check_file_exists, parquetDecode_parquetEncode]

/-- Folding the page loop of list_objects from any accumulator appends the
suffix-filtered page keys. -/
theorem list_objects_foldl (pages : List Page) (suf : String) (acc : List String) :
    pages.foldl
      (fun acc page =>
        match page with
        | some contents => acc ++ contents.filter (sufMatch suf)
        | none => acc)
      acc
    = acc ++ (pagesKeys pages).filter (sufMatch suf) := by
  induction pages generalizing acc with
  | nil => simp [pagesKeys]
  | cons p pages ih =>
      cases p with
      | none => simp [pagesKeys, ih]
      | some contents =>
          simp [pagesKeys, ih, List.filter_append, List.append_assoc]

/-- Claim C6: list_objects returns exactly the keys present in the store
that start with the prefix and pass the suffix test (all keys under the
prefix when the suffix is empty), in the store's listing order, and returns
a list — the empty list when nothing matches — rather than raising. -/
theorem list_objects_spec (s : Store) (pre suf : String) (pages : List Page)
    (hpages : pagesKeys pages = s3ListKeys s pre) :
    list_objects pages suf = (s3ListKeys s pre).filter (sufMatch suf) ∧
    (∀ k, k ∈ list_objects pages suf ↔
      k ∈ s.map Prod.fst ∧ strStartsWith k pre = true ∧
        (suf = "" ∨ strEndsWith k suf = true)) ∧
    (list_objects pages suf).Sublist (s.map Prod.fst) := by
  have heq : list_objects pages suf = (s3ListKeys s pre).filter (sufMatch suf) := by
    unfold list_objects
    rw [list_objects_foldl pages suf [], hpages, List.nil_append]
  refine ⟨heq, ?_, ?_⟩
  · intro k
    rw [heq]
    unfold s3ListKeys
    simp only [List.mem_filter, sufMatch, Bool.or_eq_true, beq_iff_eq]
    tauto
  · rw [heq]
    exact (List.filter_sublist _).trans (List.filter_sublist _)

/-- Witness for C6 on a concrete three-object store paginated into one
page. -/
theorem list_objects_spec_witness :
    list_objects [some ["bronze/tx/a.parquet", "bronze/tx/b.csv"]] ".parquet"
      = (s3ListKeys
          [("bronze/tx/a.parquet", objEx), ("bronze/tx/b.csv", objEx),
           ("silver/x.parquet", objEx)] "bronze/").filter (sufMatch ".parquet") ∧
    (∀ k, k ∈ list_objects [some ["bronze/tx/a.parquet", "bronze/tx/b.csv"]] ".parquet" ↔
      k ∈ ([("bronze/tx/a.parquet", objEx), ("bronze/tx/b.csv", objEx),
            ("silver/x.parquet", objEx)] : Store).map Prod.fst ∧
        strStartsWith k "bronze/" = true ∧
        (".parquet" = "" ∨ strEndsWith k ".parquet" = true)) ∧
    (list_objects [some ["bronze/tx/a.parquet", "bronze/tx/b.csv"]] ".parquet").Sublist
      (([("bronze/tx/a.parquet", objEx), ("bronze/tx/b.csv", objEx),
         ("silver/x.parquet", objEx)] : Store).map Prod.fst) :=
  list_objects_spec
    [("bronze/tx/a.parquet", objEx), ("bronze/tx/b.csv", objEx),
     ("silver/x.parquet", objEx)]
    "bronze/" ".parquet" [some ["bronze/tx/a.parquet", "bronze/tx/b.csv"]] (by decide)

/-- Any key bound in the initial two-entry dict stays bound through every
later step of prepare_metadata: the file-type/rows/columns assignments and
the caller update replace values but never remove keys. -/
theorem prepare_metadata_isSome (cm : Option (AList String)) (ft : String)
    (shape : Option (Nat × Nat)) (ts user : String) (k : String)
    (h : (alistGet [("created-at", ts), ("created-by", user)] k).isSome = true) :
    (alistGet (prepare_metadata cm ft shape ts user) k).isSome = true := by
  have hm1 : (alistGet (if ft ≠ "" then
      alistInsert [("created-at", ts), ("created-by", user)] "file-type" ft
      else [("created-at", ts), ("created-by", user)]) k).isSome = true := by
    split
    · exact alistGet_insert_isSome _ _ _ _ h
    · exact h
  cases cm with
  | none =>
      cases shape with
      | none => exact hm1
      | some sh =>
          exact alistGet_insert_isSome _ _ _ _ (alistGet_insert_isSome _ _ _ _ hm1)
  | some l =>
      cases shape with
      | none => exact alistGet_update_isSome _ _ _ hm1
      | some sh =>
          exact alistGet_update_isSome _ _ _
            (alistGet_insert_isSome _ _ _ _ (alistGet_insert_isSome _ _ _ _ hm1))

/-- The rows/columns entries computed from the shape survive a caller update
whose lower-cased keys avoid them. -/
theorem prepare_metadata_rows_columns (cm : Option (AList String)) (ft : String)
    (r c : Nat) (ts user : String)
    (hcm : ∀ p ∈ cm.getD [], strToLower p.1 ≠ "rows" ∧ strToLower p.1 ≠ "columns") :
    alistGet (prepare_metadata cm ft (some (r, c)) ts user) "rows" = some (toString r) ∧
    alistGet (prepare_metadata cm ft (some (r, c)) ts user) "columns"
      = some (toString c) := by
  have hbase : ∀ m : AList String,
      alistGet (alistInsert (alistInsert m "rows" (toString r)) "columns"
        (toString c)) "rows" = some (toString r) ∧
      alistGet (alistInsert (alistInsert m "rows" (toString r)) "columns"
        (toString c)) "columns" = some (toString c) := by
    intro m
    constructor
    · rw [alistGet_insert_ne _ _ _ _ (by decide : ("columns" : String) ≠ "rows")]
      exact alistGet_insert_self _ _ _
    · exact alistGet_insert_self _ _ _
  cases cm with
  | none => exact hbase _
  | some l =>
      have hr : ∀ p ∈ l.map (fun p => (strToLower p.1, p.2)), p.1 ≠ "rows" := by
        intro p hp
        rcases List.mem_map.mp hp with ⟨q, hq, rfl⟩
        exact (hcm q hq).1
      have hc : ∀ p ∈ l.map (fun p => (strToLower p.1, p.2)), p.1 ≠ "columns" := by
        intro p hp
        rcases List.mem_map.mp hp with ⟨q, hq, rfl⟩
        exact (hcm q hq).2
      constructor
      · rw [show prepare_metadata (some l) ft (some (r, c)) ts user
            = alistUpdate _ (l.map (fun p => (strToLower p.1, p.2))) from rfl,
          alistGet_update_not_mem _ _ _ hr]
        exact (hbase _).1
      · rw [show prepare_metadata (some l) ft (some (r, c)) ts user
            = alistUpdate _ (l.map (fun p => (strToLower p.1, p.2))) from rfl,
          alistGet_update_not_mem _ _ _ hc]
        exact (hbase _).2

/-- Claim C2 counterexample: writing the 3-row frame with columns id and
amount stores metadata mapping "columns" to "2" — the column count — not to
the comma-joined names "id,amount" the claim requires (while "rows" is
indeed "3"). -/
theorem write_parquet_columns_not_names :
    (storeGet (write_parquet_to_s3 dfEx "k" [] [] none "2024-03-02T10:15:00" "tester" [])
        "k").map (fun o => alistGet o.metadata "columns") = some (some "2") ∧
    (storeGet (write_parquet_to_s3 dfEx "k" [] [] none "2024-03-02T10:15:00" "tester" [])
        "k").map (fun o => alistGet o.metadata "columns") ≠ some (some "id,amount") ∧
    (storeGet (write_parquet_to_s3 dfEx "k" [] [] none "2024-03-02T10:15:00" "tester" [])
        "k").map (fun o => alistGet o.metadata "rows") = some (some "3") := by
  refine ⟨by decide, by decide, by decide⟩

/-- Claim C2 (amended): the stored metadata maps "rows" to the decimal string
of the row count and "columns" to the decimal string of the column count —
the number of columns, not their comma-joined names — whenever the
caller-supplied metadata does not itself bind those keys after
lower-casing. -/
theorem write_parquet_metadata_rows_columns (df : DataFrame) (key : String)
    (cm : Option (AList String)) (timestamp user : String) (s : Store)
    (hcm : ∀ p ∈ cm.getD [], strToLower p.1 ≠ "rows" ∧ strToLower p.1 ≠ "columns") :
    (storeGet (write_parquet_to_s3 df key [] [] cm timestamp user s) key).map
        (fun o => alistGet o.metadata "rows") = some (some (toString df.nrows)) ∧
    (storeGet (write_parquet_to_s3 df key [] [] cm timestamp user s) key).map
        (fun o => alistGet o.metadata "columns")
      = some (some (toString df.cols.length)) := by
  have hobj : storeGet (write_parquet_to_s3 df key [] [] cm timestamp user s) key
      = some ⟨parquetEncode df, "application/octet-stream",
             prepare_metadata cm "parquet" (some df.shape) timestamp user⟩ := by
    unfold write_parquet_to_s3
    simp only [List.isEmpty_nil, if_true]
    exact storeGet_storePut _ _ _
  rw [hobj]
  have h := prepare_metadata_rows_columns cm "parquet" df.nrows df.cols.length
    timestamp user hcm
  exact ⟨by simp [DataFrame.shape, h.1], by simp [DataFrame.shape, h.2]⟩

/-- Witness for the amended C2 at the concrete frame of spec 8.7 with a
benign caller entry. -/
theorem write_parquet_metadata_rows_columns_witness :
    (storeGet (write_parquet_to_s3 dfEx "k" [] [] (some [("Origin", "kaggle")])
        "2024-03-02T10:15:00" "tester" []) "k").map
        (fun o => alistGet o.metadata "rows") = some (some (toString dfEx.nrows)) ∧
    (storeGet (write_parquet_to_s3 dfEx "k" [] [] (some [("Origin", "kaggle")])
        "2024-03-02T10:15:00" "tester" []) "k").map
        (fun o => alistGet o.metadata "columns")
      = some (some (toString dfEx.cols.length)) :=
  write_parquet_metadata_rows_columns dfEx "k" (some [("Origin", "kaggle")])
    "2024-03-02T10:15:00" "tester" [] (by decide)

/-- Claim C3 counterexample: a caller entry under the reserved key "rows"
does overwrite the recomputed value — prepare_metadata with caller mapping
rows ↦ overridden and shape (3, 2) stores rows ↦ overridden, not the
computed "3". -/
theorem prepare_metadata_caller_overrides_rows :
    alistGet (prepare_metadata (some [("rows", "overridden")]) "parquet"
      (some (3, 2)) "2024-03-02T10:15:00" "tester") "rows" = some "overridden" ∧
    alistGet (prepare_metadata (some [("rows", "overridden")]) "parquet"
      (some (3, 2)) "2024-03-02T10:15:00" "tester") "rows" ≠ some "3" := by
  refine ⟨by decide, by decide⟩

/-- Claim C3 (amended): caller entries are merged last and therefore DO
overwrite the computed entries — for any caller pair (k, v) the produced
metadata binds the lower-cased k to v, including when that key is rows,
columns or file-type; prepare_metadata computes no checksum or format key at
all (the format lives under file-type). -/
theorem prepare_metadata_caller_wins (k v ft : String) (shape : Option (Nat × Nat))
    (ts user : String) :
    alistGet (prepare_metadata (some [(k, v)]) ft shape ts user) (strToLower k)
      = some v := by
  unfold prepare_metadata
  simp only [List.map_cons, List.map_nil, alistUpdate, List.foldl_cons, List.foldl_nil]
  exact alistGet_insert_self _ _ _

/-- The metadata of an object contains the provenance keys created-at and
created-by. -/
def hasProvenance (m : AList String) : Prop :=
  (alistGet m "created-at").isSome = true ∧ (alistGet m "created-by").isSome = true

theorem prepare_metadata_provenance (cm : Option (AList String)) (ft : String)
    (shape : Option (Nat × Nat)) (ts user : String) :
    hasProvenance (prepare_metadata cm ft shape ts user) := by
  constructor
  · exact prepare_metadata_isSome cm ft shape ts user "created-at"
      (by simp [alistGet, List.find?])
  · exact prepare_metadata_isSome cm ft shape ts user "created-by"
      (by simp [alistGet, List.find?])

/-- Looking up any key after the partitioned upload loop either sees the old
store or one of the freshly written objects, all of which carry the same
metadata. -/
theorem storeGet_foldl_put (files : List (String × Bytes)) (key ct : String)
    (md : AList String) (s : Store) (k : String) :
    storeGet (files.foldl
        (fun st f => storePut st (key ++ "/" ++ f.1) ⟨f.2, ct, md⟩) s) k
      = storeGet s k ∨
    ∃ o, storeGet (files.foldl
        (fun st f => storePut st (key ++ "/" ++ f.1) ⟨f.2, ct, md⟩) s) k
      = some o ∧ o.metadata = md := by
  induction files generalizing s with
  | nil => left; rfl
  | cons f files ih =>
      rw [List.foldl_cons]
      rcases ih (storePut s (key ++ "/" ++ f.1) ⟨f.2, ct, md⟩) with h | h
      · rcases storePut_lookup_cases s (key ++ "/" ++ f.1) k ⟨f.2, ct, md⟩ with h2 | h2
        · left; rw [h, h2]
        · right; exact ⟨_, h.trans h2, rfl⟩
      · right; exact h

/-- Claim C10: every object written by write_csv_to_s3, write_parquet_to_s3
(either branch) or write_json_to_s3 carries metadata containing the keys
created-at and created-by, for every input and every caller-supplied custom
metadata: any key whose stored object changed now holds an object with both
provenance keys present. -/
theorem writers_provenance_metadata (df : DataFrame) (key : String)
    (cm : Option (AList String)) (ts user : String) (s : Store)
    (data : DataFrame ⊕ PyJson) (pcols : List String)
    (files : List (String × Bytes)) (k : String) :
    (storeGet (write_csv_to_s3 df key cm ts user s) k = storeGet s k ∨
      ∃ o, storeGet (write_csv_to_s3 df key cm ts user s) k = some o ∧
        hasProvenance o.metadata) ∧
    (storeGet (write_parquet_to_s3 df key pcols files cm ts user s) k
        = storeGet s k ∨
      ∃ o, storeGet (write_parquet_to_s3 df key pcols files cm ts user s) k
        = some o ∧ hasProvenance o.metadata) ∧
    (storeGet (write_json_to_s3 data key cm ts user s) k = storeGet s k ∨
      ∃ o, storeGet (write_json_to_s3 data key cm ts user s) k = some o ∧
        hasProvenance o.metadata) := by
  refine ⟨?_, ?_, ?_⟩
  · rcases storePut_lookup_cases s key k
        ⟨csvEncode df, "text/csv", prepare_metadata cm "csv" (some df.shape) ts user⟩
      with h | h
    · left; exact h
    · right
      exact ⟨_, h, prepare_metadata_provenance cm "csv" (some df.shape) ts user⟩
  · unfold write_parquet_to_s3
    by_cases hp : pcols.isEmpty
    · simp only [hp, if_true]
      rcases storePut_lookup_cases s key k
          ⟨parquetEncode df, "application/octet-stream",
           prepare_metadata cm "parquet" (some df.shape) ts user⟩
        with h | h
      · left; exact h
      · right
        exact ⟨_, h, prepare_metadata_provenance cm "parquet" (some df.shape) ts user⟩
    · simp only [hp, if_false]
      rcases storeGet_foldl_put files key "application/octet-stream"
          (prepare_metadata cm "parquet" (some df.shape) ts user) s k with h | h
      · left; exact h
      · right
        rcases h with ⟨o, ho, hmd⟩
        refine ⟨o, ho, ?_⟩
        rw [hmd]
        exact prepare_metadata_provenance cm "parquet" (some df.shape) ts user
  · rcases storePut_lookup_cases s key k
        ⟨match data with
         | .inl d => stringToBytes (dfToJsonString d)
         | .inr v => stringToBytes (pyJsonToString v),
         "application/json", prepare_metadata cm "json" (some (jsonShape data)) ts user⟩
      with h | h
    · left; exact h
    · right
      exact ⟨_, h, prepare_metadata_provenance cm "json" (some (jsonShape data)) ts user⟩

/-- Claim C7: ingesting a zero-row dataset succeeds with an empty key string
and performs no object-store interaction at all — the trace is empty (no
existence check, no write) and the store is unchanged. -/
theorem ingest_data_empty_shortcircuit (tier source : String)
    (vh ph : DataFrame → DataFrame) (df : DataFrame) (date : PDate) (fmt : String)
    (partition custom : AList String) (store : Store) (h : df.nrows = 0) :
    ingest_data tier source vh ph df date fmt partition custom store
      = .ok ⟨"", store, []⟩ := by
  unfold ingest_data
  rw [if_pos h]

/-- Witness for C7 on a concrete zero-row frame. -/
theorem ingest_data_empty_shortcircuit_witness :
    ingest_data "raw" "transactions" id id ⟨[]⟩ pdEx "parquet" [] []
        [("old/key", objEx)]
      = .ok ⟨"", [("old/key", objEx)], []⟩ :=
  ingest_data_empty_shortcircuit "raw" "transactions" id id ⟨[]⟩ pdEx "parquet"
    [] [] [("old/key", objEx)] (by decide)

/-- Claim C1: for a non-empty dataset whose computed key is not yet stored,
the first ingest_data call checks existence, serializes, checksums and
writes once; a second call with identical inputs finds the key present at
the existence check and returns the same key with the store unchanged,
invoking no serialize, checksum or write — one underlying write in total
across both calls. -/
theorem ingest_data_idempotent (tier source : String)
    (vh ph : DataFrame → DataFrame) (df : DataFrame) (date : PDate) (fmt : String)
    (partition custom : AList String) (store : Store) (body : Bytes)
    (hrows : ¬ df.nrows = 0)
    (hser : serialize (ph (vh df)) fmt = some body)
    (hfresh : storeGet store (build_key tier source fmt date partition) = none) :
    ∃ st1,
      ingest_data tier source vh ph df date fmt partition custom store
        = .ok ⟨build_key tier source fmt date partition, st1,
               [.opExists (build_key tier source fmt date partition), .opSerialize,
                .opChecksum, .opWrite (build_key tier source fmt date partition)]⟩ ∧
      ingest_data tier source vh ph df date fmt partition custom st1
        = .ok ⟨build_key tier source fmt date partition, st1,
               [.opExists (build_key tier source fmt date partition)]⟩ ∧
      countWrites
        ([Op.opExists (build_key tier source fmt date partition), Op.opSerialize,
          Op.opChecksum, Op.opWrite (build_key tier source fmt date partition)]
         ++ [Op.opExists (build_key tier source fmt date partition)]) = 1 := by
  refine ⟨storePut store (build_key tier source fmt date partition)
      ⟨body, "application/octet-stream",
       ingestMetadata source tier date (checksum body) fmt (ph (vh df)) custom⟩,
    ?_, ?_, ?_⟩
  · unfold ingest_data
    rw [if_neg hrows]
    simp only [hfresh, Option.isSome_none, Bool.false_eq_true, if_false, hser]
  · unfold ingest_data
    rw [if_neg hrows]
    simp only [storeGet_storePut, Option.isSome_some, if_true]
  · rfl

/-- Witness for C1 on the concrete frame, date and parquet format of spec
8.7, starting from the empty store. -/
theorem ingest_data_idempotent_witness :
    ∃ st1,
      ingest_data "bronze" "transactions" id id dfEx pdEx "parquet" [] [] []
        = .ok ⟨build_key "bronze" "transactions" "parquet" pdEx [], st1,
               [.opExists (build_key "bronze" "transactions" "parquet" pdEx []),
                .opSerialize, .opChecksum,
                .opWrite (build_key "bronze" "transactions" "parquet" pdEx [])]⟩ ∧
      ingest_data "bronze" "transactions" id id dfEx pdEx "parquet" [] [] st1
        = .ok ⟨build_key "bronze" "transactions" "parquet" pdEx [], st1,
               [.opExists (build_key "bronze" "transactions" "parquet" pdEx [])]⟩ ∧
      countWrites
        ([Op.opExists (build_key "bronze" "transactions" "parquet" pdEx []),
          Op.opSerialize, Op.opChecksum,
          Op.opWrite (build_key "bronze" "transactions" "parquet" pdEx [])]
         ++ [Op.opExists (build_key "bronze" "transactions" "parquet" pdEx [])]) = 1 :=
  ingest_data_idempotent "bronze" "transactions" id id dfEx pdEx "parquet" [] [] []
    (parquetEncode dfEx) (by decide) rfl rfl

/-- A concrete stored object whose bytes are the JSON text "[1]". -/
def objJson : S3Object := ⟨stringToBytes "[1]", "application/json", []⟩

/-- A concrete model of Python json.loads: rejects empty input (as
json.loads does, with "Expecting value"), parses the non-empty stored text
to a list. -/
def jsonLoadsEx (b : Bytes) : Except String PyJson :=
  if b.isEmpty then .error "Expecting value" else .ok (.jlist ["1"])

/-- Claim C9 counterexample: the key "k" exists and holds the JSON text
"[1]", which json.loads parses to a list; pd.read_json fails.  The call
does not return json.loads of the stored bytes — the fallback runs on the
drained stream, json.loads rejects the empty input, and the resulting parse
error propagates to the caller. -/
theorem read_json_fallback_claim_false :
    read_json_from_s3 (fun _ => .error "pandas parse failure") jsonLoadsEx
        [("k", objJson)] "k"
      = .error (.jsonError "Expecting value") ∧
    jsonLoadsEx objJson.body = .ok (.jlist ["1"]) ∧
    read_json_from_s3 (fun _ => .error "pandas parse failure") jsonLoadsEx
        [("k", objJson)] "k"
      ≠ .ok (.inr (.jlist ["1"])) := by
  refine ⟨rfl, rfl, fun h => Except.noConfusion h⟩

/-- Claim C9 (amended): on an existing key whose stored bytes pd.read_json
cannot parse under the requested orientation, the pandas error itself is
suppressed, but the fallback json.loads receives the already-exhausted
stream — the empty byte sequence, not the stored bytes: the call's outcome
is exactly json.loads on empty input, and since Python's json.loads rejects
empty input, a JSON decode error propagates to the caller instead of the
stored object's parsed content. -/
theorem read_json_fallback_empty_stream (pdReadJson : Bytes → Except String DataFrame)
    (jsonLoads : Bytes → Except String PyJson) (s : Store) (key : String)
    (obj : S3Object) (err : String)
    (hobj : storeGet s key = some obj)
    (hpd : pdReadJson obj.body = .error err) :
    read_json_from_s3 pdReadJson jsonLoads s key
      = (match jsonLoads [] with
         | .ok v => .ok (.inr v)
         | .error m => .error (.jsonError m)) := by
  unfold read_json_from_s3 head_object StreamingBody.readAll
  rw [hobj]
  simp only [Option.isSome_some, if_true, check_file_exists, List.drop_zero, hpd,
    List.drop_length]

/-- Witness for the amended C9 at the concrete store, failing pandas parser
and json.loads model. -/
theorem read_json_fallback_empty_stream_witness :
    read_json_from_s3 (fun _ => .error "pandas parse failure") jsonLoadsEx
        [("k", objJson)] "k"
      = (match jsonLoadsEx [] with
         | .ok v => .ok (.inr v)
         | .error m => .error (.jsonError m)) :=
  read_json_fallback_empty_stream (fun _ => .error "pandas parse failure")
    jsonLoadsEx [("k", objJson)] "k" objJson "pandas parse failure" rfl rfl

end S3Spec
